import Mathlib

/-!
Shallow embedding of the recipient change-tracking and cloud-serialization
subsystem of `O365/recipient.py` (classes `Recipient`, `Recipients` and
`HandleRecipientsMixin`).

Python object references to parent resources and collections are modelled by
numeric identifiers (`Option Nat`: `none` is the Python `None` parent).  The
dirty-field set `_track_changes` living on the parent resource is carried
inline in the collection state, together with a boolean recording whether
`getattr(parent, "_track_changes", None) is not None`.  A raised Python
exception is modelled by a boolean flag returned next to the (possibly
partially mutated) state, since Python mutations performed before a raise
survive the raise.
-/

namespace O365

/-- JSON-like values handled by the cloud conversion code.  `dict` is a Python
dict given as its association list in insertion order; `other` stands for any
non-string, non-dict, non-None Python value that has no `get` method, tagged
with its Python truthiness. -/
inductive CloudValue where
  | null
  | str (s : String)
  | dict (entries : List (String × CloudValue))
  | other (isTruthy : Bool)

/-- Python truthiness of a `CloudValue` (`bool(x)`): `None` and empty
strings/dicts are falsy. -/
def CloudValue.truthy : CloudValue → Bool
  | .null => false
  | .str s => s != ""
  | .dict es => !es.isEmpty
  | .other b => b

/-- Python `d.get(k)` on a dict represented as an association list: the value
at the first matching key, if any. -/
def dictGet (es : List (String × CloudValue)) (k : String) : Option CloudValue :=
  (es.find? (fun p => p.1 == k)).map (·.2)

/-- Python `x or ""` as used in `Recipient.__init__`: keep a truthy value,
replace any falsy value by the empty string. -/
def orEmptyStr (v : CloudValue) : CloudValue :=
  if v.truthy then v else .str ""

/-- The `Recipient` class: `_address`, `_name`, `_parent` (as an identifier)
and `_field`. -/
structure Recipient where
  address : CloudValue
  name : CloudValue
  parent : Option Nat
  field : Option String

/-- The `Recipient.__init__` constructor: `self._address = address or ""` and
`self._name = name or ""`. -/
def Recipient.make (address name : CloudValue) (parent : Option Nat)
    (field : Option String) : Recipient :=
  ⟨orEmptyStr address, orEmptyStr name, parent, field⟩

/-- The `Recipient.__bool__` method: truthy iff the address is truthy. -/
def Recipient.truthy (r : Recipient) : Bool :=
  r.address.truthy

/-- The `Recipients` collection state.  `selfId` identifies the collection
object itself, `parent` the `_parent` reference, `parentHasTC` records whether
`getattr(parent, "_track_changes", None) is not None`, and `dirty` is the
contents of the dirty-field set on the parent. -/
structure Recipients where
  selfId : Nat
  parent : Option Nat
  parentHasTC : Bool
  field : Option String
  untrack : Bool
  recs : List Recipient
  dirty : Finset String

/-- Python truthiness of `self._field` (a `str` or `None`). -/
def Recipients.fieldTruthy (c : Recipients) : Bool :=
  match c.field with
  | some f => f != ""
  | none => false

/-- The `Recipients._track_changes` method: add `_field` to the dirty-field
set of the parent when `_field` is truthy, the parent has a `_track_changes`
set, and `untrack` is off. -/
def Recipients.track_changes (c : Recipients) : Recipients :=
  if c.fieldTruthy && c.parentHasTC && !c.untrack then
    { c with dirty := insert (c.field.getD "") c.dirty }
  else c

/-- The `Recipients.clear` method: empty the list, then notify. -/
def Recipients.clear (c : Recipients) : Recipients :=
  ({ c with recs := [] }).track_changes

/-- The shapes that can be passed to `Recipients.add` (and to the
constructor): an address string, a prebuilt `Recipient`, a `(name, address)`
tuple of strings, a list of such shapes, or any other Python value (`other`,
tagged with its truthiness), which the code rejects with `ValueError` when
truthy. -/
inductive RecipInput where
  | str (s : String)
  | recip (r : Recipient)
  | pair (name address : String)
  | list (xs : List RecipInput)
  | other (isTruthy : Bool)

/-- Python truthiness of an `add` argument: empty strings, lists and falsy
`Recipient`s (empty address) are falsy; a 2-tuple is always truthy. -/
def RecipInput.truthy : RecipInput → Bool
  | .str s => s != ""
  | .recip r => r.truthy
  | .pair _ _ => true
  | .list xs => !xs.isEmpty
  | .other b => b

mutual

/-- The `Recipients.add` method.  Returns the state after the call together
with a flag that is `true` iff the call raised `ValueError`; mutations made
before the raise are kept, matching Python semantics. -/
def Recipients.add (c : Recipients) (inp : RecipInput) : Recipients × Bool :=
  if inp.truthy then
    match inp with
    | .str s =>
        (({ c with recs := c.recs ++
            [Recipient.make (.str s) .null c.parent c.field] }).track_changes,
         false)
    | .recip r =>
        (({ c with recs := c.recs ++ [r] }).track_changes, false)
    | .pair n a =>
        let c1 := if a != "" then
            { c with recs := c.recs ++
              [Recipient.make (.str a) (.str n) c.parent c.field] }
          else c
        (c1.track_changes, false)
    | .list xs =>
        match Recipients.addList c xs with
        | (c1, true) => (c1, true)
        | (c1, false) => (c1.track_changes, false)
    | .other _ => (c, true)
  else (c, false)

/-- The `for recipient in recipients: self.add(recipient)` loop inside
`Recipients.add`, stopping at the first raise. -/
def Recipients.addList (c : Recipients) : List RecipInput → Recipients × Bool
  | [] => (c, false)
  | x :: xs =>
      match Recipients.add c x with
      | (c1, true) => (c1, true)
      | (c1, false) => Recipients.addList c1 xs

end

/-- The `Recipients.__init__` constructor: start with an empty list and
`untrack = True`, `add` the argument if truthy, then reset `untrack` (the
reset is skipped when `add` raises, as in Python). -/
def Recipients.init (selfId : Nat) (parent : Option Nat) (parentHasTC : Bool)
    (field : Option String) (dirty0 : Finset String) (inp : RecipInput) :
    Recipients × Bool :=
  let c0 : Recipients :=
    ⟨selfId, parent, parentHasTC, field, true, [], dirty0⟩
  if inp.truthy then
    match c0.add inp with
    | (c1, true) => (c1, true)
    | (c1, false) => ({ c1 with untrack := false }, false)
  else ({ c0 with untrack := false }, false)

/-- The argument of `Recipients.remove`: a single address string or a list of
address strings. -/
inductive RemoveArg where
  | str (s : String)
  | list (xs : List String)

/-- The set of addresses built at the top of `Recipients.remove` (membership
is all that matters, so a list suffices). -/
def RemoveArg.toAddrs : RemoveArg → List String
  | .str s => [s]
  | .list xs => xs

/-- Python membership `recipient.address in address_set` where the set holds
strings: only a string value can compare equal to a string. -/
def cvMemStrs (v : CloudValue) (xs : List String) : Bool :=
  match v with
  | .str s => xs.contains s
  | _ => false

/-- The `Recipients.remove` method: keep the recipients whose address is not
in the removal set, notify iff the kept length differs from the original
length, then install the kept list. -/
def Recipients.remove (c : Recipients) (a : RemoveArg) : Recipients :=
  let kept := c.recs.filter (fun r => !cvMemStrs r.address a.toAddrs)
  let c1 := if kept.length ≠ c.recs.length then c.track_changes else c
  { c1 with recs := kept }

/-- The `HandleRecipientsMixin._recipient_from_cloud` method, parameterized by
the casing function `cc` (`self._cc`) of the owning resource and by the
identifier `parentId` of that resource.  `Except.error ()` models the
`AttributeError` raised by calling `.get` on a value that is not a dict. -/
def recipient_from_cloud (cc : String → String) (parentId : Option Nat)
    (field : Option String) (v : CloudValue) : Except Unit Recipient :=
  if v.truthy then
    match v with
    | .dict es =>
        match (dictGet es (cc "emailAddress")).getD (.dict es) with
        | .dict inner =>
            .ok (Recipient.make ((dictGet inner (cc "address")).getD (.str ""))
              ((dictGet inner (cc "name")).getD (.str "")) parentId field)
        | _ => .error ()
    | _ => .error ()
  else
    .ok (Recipient.make .null .null none none)

/-- The `HandleRecipientsMixin._recipient_to_cloud` method: `None` for a falsy
or absent recipient, otherwise the envelope dict, with the name key appended
after the address key only when the name is truthy. -/
def recipient_to_cloud (cc : String → String) (r : Option Recipient) :
    Option CloudValue :=
  match r with
  | none => none
  | some rec =>
      if rec.truthy then
        some (.dict [(cc "emailAddress", .dict
          ((cc "address", rec.address) ::
            (if rec.name.truthy then [(cc "name", rec.name)] else [])))])
      else none

/-- The loop of `HandleRecipientsMixin._recipients_from_cloud` building
`recipients_data`: convert each raw item, propagating a raise. -/
def recipients_data_from_cloud (cc : String → String) (parentId : Option Nat)
    (field : Option String) : List CloudValue → Except Unit (List Recipient)
  | [] => .ok []
  | v :: vs =>
      match recipient_from_cloud cc parentId field v with
      | .error e => .error e
      | .ok r =>
          match recipients_data_from_cloud cc parentId field vs with
          | .error e => .error e
          | .ok rs => .ok (r :: rs)

/-- The `HandleRecipientsMixin._recipients_from_cloud` method: convert every
raw item with the resource `selfId` as parent, then build a `Recipients`
owned by the resource. -/
def recipients_from_cloud (cc : String → String) (selfId collId : Nat)
    (hasTC : Bool) (field : Option String) (dirty0 : Finset String)
    (raws : List CloudValue) : Except Unit (Recipients × Bool) :=
  match recipients_data_from_cloud cc (some selfId) field raws with
  | .error e => .error e
  | .ok rs =>
      .ok (Recipients.init collId (some selfId) hasTC field dirty0
        (.list (rs.map .recip)))

/-- Dirty tracking is engaged on a collection: the field name is truthy, the
parent exposes a dirty-field set, and suppression is off. -/
def Recipients.engaged (c : Recipients) : Prop :=
  c.fieldTruthy = true ∧ c.parentHasTC = true ∧ c.untrack = false

/-- Invariants that `add` maintains between the state before and after a call:
everything but `recs` and `dirty` is untouched, `dirty` grows at most by the
field name, and `dirty` is untouched while `untrack` is on. -/
def Ctx (c c1 : Recipients) : Prop :=
  c1.selfId = c.selfId ∧ c1.parent = c.parent ∧ c1.parentHasTC = c.parentHasTC ∧
  c1.field = c.field ∧ c1.untrack = c.untrack ∧
  c1.dirty ⊆ insert (c.field.getD "") c.dirty ∧
  (c.untrack = true → c1.dirty = c.dirty)

theorem Ctx.refl (c : Recipients) : Ctx c c :=
  ⟨rfl, rfl, rfl, rfl, rfl, Finset.subset_insert _ _, fun _ => rfl⟩

theorem Ctx.trans {a b c : Recipients} (h1 : Ctx a b) (h2 : Ctx b c) : Ctx a c := by
  obtain ⟨i1, p1, t1, f1, u1, d1, e1⟩ := h1
  obtain ⟨i2, p2, t2, f2, u2, d2, e2⟩ := h2
  refine ⟨i2.trans i1, p2.trans p1, t2.trans t1, f2.trans f1, u2.trans u1, ?_, ?_⟩
  · intro x hx
    have := d2 hx
    rw [f1] at this
    rcases Finset.mem_insert.mp this with h | h
    · rw [h]
      exact Finset.mem_insert_self _ _
    · exact d1 h
  · intro hu
    have hb : b.untrack = true := u1.trans hu
    rw [e2 hb, e1 hu]

theorem Ctx.track (c : Recipients) : Ctx c c.track_changes := by
  unfold Recipients.track_changes
  split
  · rename_i h
    refine ⟨rfl, rfl, rfl, rfl, rfl, Finset.Subset.refl _, ?_⟩
    intro hu
    simp [hu] at h
  · exact Ctx.refl c

theorem Ctx.setRecs (c : Recipients) (l : List Recipient) :
    Ctx c { c with recs := l } :=
  ⟨rfl, rfl, rfl, rfl, rfl, Finset.subset_insert _ _, fun _ => rfl⟩

mutual

theorem add_Ctx (c : Recipients) (inp : RecipInput) :
    Ctx c (Recipients.add c inp).1 := by
  match inp with
  | .str s =>
      rw [Recipients.add]
      split
      · exact Ctx.trans (Ctx.setRecs _ _) (Ctx.track _)
      · exact Ctx.refl c
  | .recip r =>
      rw [Recipients.add]
      split
      · exact Ctx.trans (Ctx.setRecs _ _) (Ctx.track _)
      · exact Ctx.refl c
  | .pair n a =>
      rw [Recipients.add]
      split
      · dsimp only
        split
        · exact Ctx.trans (Ctx.setRecs _ _) (Ctx.track _)
        · exact Ctx.track _
      · exact Ctx.refl c
  | .list xs =>
      rw [Recipients.add]
      split
      · have h := addList_Ctx c xs
        cases hq : Recipients.addList c xs with
        | mk c1 e =>
            rw [hq] at h
            cases e
            · exact Ctx.trans h (Ctx.track _)
            · exact h
      · exact Ctx.refl c
  | .other b =>
      rw [Recipients.add]
      split
      · exact Ctx.refl c
      · exact Ctx.refl c

theorem addList_Ctx (c : Recipients) (xs : List RecipInput) :
    Ctx c (Recipients.addList c xs).1 := by
  match xs with
  | [] => exact Ctx.refl c
  | x :: rest =>
      rw [Recipients.addList]
      have h := add_Ctx c x
      cases hq : Recipients.add c x with
      | mk c1 e =>
          rw [hq] at h
          cases e
          · exact Ctx.trans h (addList_Ctx c1 rest)
          · exact h

end

/-- A string that differs from the empty string is truthy. -/
theorem str_truthy (s : String) (h : s ≠ "") : (CloudValue.str s).truthy = true := by
  simp [CloudValue.truthy, h]

/-- Applying the `or ""` coercion to a string value never changes it: a falsy
string is already the empty string. -/
theorem orEmptyStr_str (s : String) : orEmptyStr (.str s) = .str s := by
  unfold orEmptyStr
  split
  · rfl
  · rename_i h
    simp [CloudValue.truthy] at h
    rw [h]

/-- With tracking engaged, `track_changes` inserts the field name into the
dirty-field set. -/
theorem track_changes_engaged (c : Recipients) (h : c.engaged) :
    c.track_changes = { c with dirty := insert (c.field.getD "") c.dirty } := by
  obtain ⟨hf, hp, hu⟩ := h
  unfold Recipients.track_changes
  simp [hf, hp, hu]

/-- A notification never touches the recipient list. -/
theorem track_changes_recs (c : Recipients) : c.track_changes.recs = c.recs := by
  unfold Recipients.track_changes
  split <;> rfl

/-- The recipient list after `remove` is the filtered original list. -/
theorem remove_recs (c : Recipients) (a : RemoveArg) :
    (c.remove a).recs = c.recs.filter (fun r => !cvMemStrs r.address a.toAddrs) := rfl

/-- When the filter keeps every recipient, `remove` is a complete no-op. -/
theorem remove_noop (c : Recipients) (a : RemoveArg)
    (h : c.recs.filter (fun r => !cvMemStrs r.address a.toAddrs) = c.recs) :
    c.remove a = c := by
  unfold Recipients.remove
  dsimp only
  rw [h, if_neg (by intro hx; exact hx rfl)]

/-- When `remove` drops at least one recipient and tracking is engaged, the
field name is inserted into the dirty-field set. -/
theorem remove_dirty_changed (c : Recipients) (a : RemoveArg) (h : c.engaged)
    (hl : (c.recs.filter (fun r => !cvMemStrs r.address a.toAddrs)).length ≠
      c.recs.length) :
    (c.remove a).dirty = insert (c.field.getD "") c.dirty := by
  unfold Recipients.remove
  dsimp only
  rw [if_pos hl]
  obtain ⟨hf, hp, hu⟩ := h
  unfold Recipients.track_changes
  simp [hf, hp, hu]

/-- When `remove` drops nothing, the dirty-field set is untouched. -/
theorem remove_dirty_unchanged (c : Recipients) (a : RemoveArg)
    (hl : (c.recs.filter (fun r => !cvMemStrs r.address a.toAddrs)).length =
      c.recs.length) :
    (c.remove a).dirty = c.dirty := by
  unfold Recipients.remove
  dsimp only
  rw [if_neg (by intro hx; exact hx hl)]

/-- Filtering a recipient list twice with the same predicate equals filtering
once. -/
theorem filter_keep_idem (l : List Recipient) (p : Recipient → Bool) :
    (l.filter p).filter p = l.filter p := by
  rw [List.filter_filter]
  simp

/-- C10: for every collection, calling `add` with any falsy argument (Python
`None`, the empty string, an empty list or tuple, a falsy value of an
unsupported type such as an empty mapping, or a falsy prebuilt recipient) is
a complete no-op: nothing is appended, no `ValueError` is raised, and the
dirty-field set of the owner is untouched. -/
theorem add_falsy_noop (c : Recipients) (inp : RecipInput)
    (h : inp.truthy = false) : Recipients.add c inp = (c, false) := by
  rw [Recipients.add.eq_def, h]
  simp

/-- Witness for `add_falsy_noop`: adding an empty (falsy) unsupported value,
such as an empty mapping, to a concrete engaged collection changes nothing
and raises nothing. -/
theorem add_falsy_noop_witness :
    Recipients.add ⟨0, some 1, true, some "to", false, [], ∅⟩ (.other false) =
      (⟨0, some 1, true, some "to", false, [], ∅⟩, false) :=
  add_falsy_noop ⟨0, some 1, true, some "to", false, [], ∅⟩ (.other false) rfl

/-- C5: `_recipient_to_cloud` returns the absent marker (`None`) for an
absent recipient or one with a falsy address — never an empty object — and
otherwise returns `{emailAddress: {address: ...}}`, adding the name key
inside the nested mapping iff the name is truthy. -/
theorem to_cloud_spec (cc : String → String) :
    recipient_to_cloud cc none = none ∧
    ∀ r : Recipient,
      (r.truthy = false → recipient_to_cloud cc (some r) = none) ∧
      (r.truthy = true →
        recipient_to_cloud cc (some r) =
          some (.dict [(cc "emailAddress", .dict
            ((cc "address", r.address) ::
              (if r.name.truthy = true then [(cc "name", r.name)] else [])))])) ∧
      recipient_to_cloud cc (some r) ≠ some (.dict []) := by
  refine ⟨rfl, fun r => ⟨?_, ?_, ?_⟩⟩
  · intro h
    simp [recipient_to_cloud, h]
  · intro h
    simp [recipient_to_cloud, h]
  · unfold recipient_to_cloud
    split
    · simp
    · simp

/-- Witness for `to_cloud_spec`: a concrete truthy recipient with a name
serializes to the nested wire shape, and a concrete falsy one to `None`. -/
theorem to_cloud_spec_witness :
    recipient_to_cloud (fun k => k) (some ⟨.str "a@x.com", .str "Bob", none, none⟩) =
      some (.dict [("emailAddress",
        .dict [("address", .str "a@x.com"), ("name", .str "Bob")])]) ∧
    recipient_to_cloud (fun k => k) (some ⟨.str "", .str "Bob", none, none⟩) = none := by
  constructor
  · have h := ((to_cloud_spec (fun k => k)).2
      ⟨.str "a@x.com", .str "Bob", none, none⟩).2.1 rfl
    simpa using h
  · exact ((to_cloud_spec (fun k => k)).2 ⟨.str "", .str "Bob", none, none⟩).1 rfl

/-- C7: for every collection with engaged dirty tracking, also an already
empty one, `clear` empties the recipient sequence and unconditionally adds
the field name to the dirty-field set of the owner. -/
theorem clear_spec (c : Recipients) (h : c.engaged) :
    c.clear.recs = [] ∧ c.clear.dirty = insert (c.field.getD "") c.dirty := by
  have h2 : ({ c with recs := ([] : List Recipient) } : Recipients).engaged := h
  unfold Recipients.clear
  rw [track_changes_engaged _ h2]
  exact ⟨rfl, rfl⟩

/-- Witness for `clear_spec`: clearing a concrete collection that is already
empty still marks the owner dirty. -/
theorem clear_spec_witness :
    (Recipients.clear ⟨0, some 1, true, some "to", false, [], ∅⟩).recs = [] ∧
    (Recipients.clear ⟨0, some 1, true, some "to", false, [], ∅⟩).dirty =
      insert "to" (∅ : Finset String) :=
  clear_spec ⟨0, some 1, true, some "to", false, [], ∅⟩ ⟨rfl, rfl, rfl⟩

/-- C6: for every collection with engaged dirty tracking, `remove` keeps
exactly the recipients whose address is not in the removal set (matching by
address only, names ignored), inserts the field name into the dirty-field
set when the kept length differs from the original length and leaves the
dirty-field set untouched otherwise, and a second `remove` with the same
argument is a complete no-op. -/
theorem remove_spec (c : Recipients) (a : RemoveArg) (h : c.engaged) :
    (c.remove a).recs = c.recs.filter (fun r => !cvMemStrs r.address a.toAddrs) ∧
    ((c.remove a).recs.length ≠ c.recs.length →
      (c.remove a).dirty = insert (c.field.getD "") c.dirty) ∧
    ((c.remove a).recs.length = c.recs.length →
      (c.remove a).dirty = c.dirty) ∧
    (c.remove a).remove a = c.remove a := by
  refine ⟨rfl, ?_, ?_, ?_⟩
  · intro hl
    exact remove_dirty_changed c a h hl
  · intro hl
    exact remove_dirty_unchanged c a hl
  · exact remove_noop (c.remove a) a
      (filter_keep_idem c.recs (fun r => !cvMemStrs r.address a.toAddrs))

/-- Witness for `remove_spec`: removing one address from a concrete
two-element collection keeps the other recipient (whose name differs) and
marks the owner dirty. -/
theorem remove_spec_witness :
    (Recipients.remove ⟨0, some 1, true, some "to", false,
      [⟨.str "a@x.com", .str "", some 1, some "to"⟩,
       ⟨.str "b@x.com", .str "Bea", some 1, some "to"⟩], ∅⟩
      (.str "a@x.com")).recs =
      [⟨.str "b@x.com", .str "Bea", some 1, some "to"⟩] ∧
    (Recipients.remove ⟨0, some 1, true, some "to", false,
      [⟨.str "a@x.com", .str "", some 1, some "to"⟩,
       ⟨.str "b@x.com", .str "Bea", some 1, some "to"⟩], ∅⟩
      (.str "a@x.com")).dirty = insert "to" (∅ : Finset String) := by
  have h := remove_spec ⟨0, some 1, true, some "to", false,
      [⟨.str "a@x.com", .str "", some 1, some "to"⟩,
       ⟨.str "b@x.com", .str "Bea", some 1, some "to"⟩], ∅⟩
      (.str "a@x.com") ⟨rfl, rfl, rfl⟩
  refine ⟨?_, ?_⟩
  · rw [h.1]
    rfl
  · exact h.2.1 (by decide)

/-- Adding a value of an unsupported shape raises exactly when the value is
truthy, and in both cases leaves the state untouched (the raise happens
before the notification at the end of `add`). -/
theorem add_other (c : Recipients) (b : Bool) :
    Recipients.add c (.other b) = (c, b) := by
  cases b <;> rfl

/-- Adding a `(name, address)` pair with an empty address appends nothing but
still runs the notification at the end of `add`. -/
theorem add_pair_empty (c : Recipients) (n : String) :
    Recipients.add c (.pair n "") = (c.track_changes, false) := rfl

/-- When the loop of `add` over a list raises nothing, processing an appended
suffix continues from the state reached after the original list. -/
theorem addList_append (c : Recipients) (xs ys : List RecipInput)
    (h : (Recipients.addList c xs).2 = false) :
    Recipients.addList c (xs ++ ys) =
      Recipients.addList (Recipients.addList c xs).1 ys := by
  induction xs generalizing c with
  | nil => rfl
  | cons x rest ih =>
      cases hq : Recipients.add c x with
      | mk c1 e =>
          cases e
          · simp only [List.cons_append, Recipients.addList, hq]
            exact ih c1 (by simpa only [Recipients.addList, hq] using h)
          · exfalso
            rw [Recipients.addList, hq] at h
            simp at h

/-- The constructor of `Recipients` never changes the dirty-field set of the
owner: the whole `add` runs with `untrack` on. -/
theorem init_dirty (selfId : Nat) (parent : Option Nat) (ptc : Bool)
    (field : Option String) (dirty0 : Finset String) (inp : RecipInput) :
    (Recipients.init selfId parent ptc field dirty0 inp).1.dirty = dirty0 := by
  unfold Recipients.init
  dsimp only
  split
  · cases hq : Recipients.add ⟨selfId, parent, ptc, field, true, [], dirty0⟩ inp with
    | mk c1 e =>
        have h := add_Ctx ⟨selfId, parent, ptc, field, true, [], dirty0⟩ inp
        rw [hq] at h
        have hd := h.2.2.2.2.2.2 rfl
        cases e
        · exact hd
        · exact hd
  · rfl

/-- C2 counterexample: on a concrete engaged collection, adding the pair
`("Bob", "")` appends nothing, yet the field name is added to the dirty-field
set of the owner — the truthy tuple reaches the notification at the end of
`add` even though no append happened, contradicting the claim that nothing
is added to the dirty-field set. -/
theorem add_empty_pair_counterexample :
    (Recipients.add ⟨0, some 1, true, some "to", false, [], ∅⟩
      (.pair "Bob" "")).1.recs = [] ∧
    (Recipients.add ⟨0, some 1, true, some "to", false, [], ∅⟩
      (.pair "Bob" "")).1.dirty = {"to"} ∧
    ({"to"} : Finset String) ≠ (∅ : Finset String) :=
  ⟨rfl, by decide, by decide⟩

/-- C2 amended: with engaged dirty tracking, `add` of a pair with an empty
address appends nothing and raises nothing, but still inserts the field name
into the dirty-field set (the notification fires for any truthy argument);
and any single `add` call adds at most the field name to the dirty-field
set, regardless of how many items were appended. -/
theorem add_empty_pair_spec (c : Recipients) (n : String) (inp : RecipInput)
    (h : c.engaged) :
    (c.add (.pair n "")).1.recs = c.recs ∧
    (c.add (.pair n "")).1.dirty = insert (c.field.getD "") c.dirty ∧
    (c.add (.pair n "")).2 = false ∧
    (c.add inp).1.dirty ⊆ insert (c.field.getD "") c.dirty := by
  rw [add_pair_empty]
  refine ⟨track_changes_recs c, ?_, rfl, (add_Ctx c inp).2.2.2.2.2.1⟩
  rw [track_changes_engaged c h]

/-- Witness for `add_empty_pair_spec` at a concrete engaged collection. -/
theorem add_empty_pair_spec_witness :
    (Recipients.add ⟨2, some 3, true, some "cc", false,
      [⟨.str "x@y.z", .str "", some 3, some "cc"⟩], ∅⟩ (.pair "Ann" "")).1.recs =
      [⟨.str "x@y.z", .str "", some 3, some "cc"⟩] ∧
    (Recipients.add ⟨2, some 3, true, some "cc", false,
      [⟨.str "x@y.z", .str "", some 3, some "cc"⟩], ∅⟩ (.pair "Ann" "")).1.dirty =
      insert "cc" (∅ : Finset String) := by
  have h := add_empty_pair_spec ⟨2, some 3, true, some "cc", false,
      [⟨.str "x@y.z", .str "", some 3, some "cc"⟩], ∅⟩ "Ann" (.str "q@r.s")
      ⟨rfl, rfl, rfl⟩
  exact ⟨h.1, h.2.1⟩

/-- C3 counterexample: on a concrete collection, `add` of the list
`["a@x.com", <unsupported truthy value>]` raises, yet the first item has
already been appended — the recipient sequence is not left as it was, so the
operation is not fully rejected before mutating state. -/
theorem add_not_atomic_counterexample :
    (Recipients.add ⟨0, some 1, true, some "to", false, [], ∅⟩
      (.list [.str "a@x.com", .other true])).2 = true ∧
    (Recipients.add ⟨0, some 1, true, some "to", false, [], ∅⟩
      (.list [.str "a@x.com", .other true])).1.recs =
      [⟨.str "a@x.com", .str "", some 1, some "to"⟩] ∧
    ([⟨.str "a@x.com", .str "", some 1, some "to"⟩] : List Recipient) ≠ [] :=
  ⟨rfl, rfl, by simp⟩

/-- C3 amended: `add` raises on a truthy unsupported shape; a top-level
unsupported value leaves the collection unchanged, but when the unsupported
value sits inside a sequence, the items processed before it remain appended —
the operation can be partially applied. -/
theorem add_error_spec (c : Recipients) (xs : List RecipInput) (b : Bool)
    (h : (Recipients.addList c xs).2 = false) :
    Recipients.add c (.other b) = (c, b) ∧
    Recipients.add c (.list (xs ++ [.other true])) =
      ((Recipients.addList c xs).1, true) := by
  refine ⟨add_other c b, ?_⟩
  rw [Recipients.add]
  rw [if_pos (by cases xs <;> simp [RecipInput.truthy])]
  rw [addList_append c xs [.other true] h]
  rfl

/-- Witness for `add_error_spec` at a concrete collection and list. -/
theorem add_error_spec_witness :
    Recipients.add ⟨0, some 1, true, some "to", false, [], ∅⟩ (.other true) =
      (⟨0, some 1, true, some "to", false, [], ∅⟩, true) ∧
    Recipients.add ⟨0, some 1, true, some "to", false, [], ∅⟩
        (.list [.str "b@x.com", .other true]) =
      ((Recipients.addList ⟨0, some 1, true, some "to", false, [], ∅⟩
        [.str "b@x.com"]).1, true) :=
  add_error_spec ⟨0, some 1, true, some "to", false, [], ∅⟩ [.str "b@x.com"]
    true rfl

/-- C8: construction never adds the field name to the dirty-field set of the
owner (notifications are suppressed by `untrack`), including bulk hydration
through `_recipients_from_cloud`; and construction from the mixed list
`["a@x.com", ("Bob", "b@x.com"), ("", "")]` yields exactly the two
recipients, in order, with the empty-address pair dropped and the dirty-field
set unchanged. -/
theorem construction_never_dirties :
    (∀ (selfId : Nat) (parent : Option Nat) (ptc : Bool) (field : Option String)
      (dirty0 : Finset String) (inp : RecipInput),
      (Recipients.init selfId parent ptc field dirty0 inp).1.dirty = dirty0) ∧
    (Recipients.init 5 (some 7) true (some "to") ∅
        (.list [.str "a@x.com", .pair "Bob" "b@x.com", .pair "" ""])).1.recs =
      [⟨.str "a@x.com", .str "", some 7, some "to"⟩,
       ⟨.str "b@x.com", .str "Bob", some 7, some "to"⟩] ∧
    (Recipients.init 5 (some 7) true (some "to") ∅
        (.list [.str "a@x.com", .pair "Bob" "b@x.com", .pair "" ""])).1.dirty = ∅ ∧
    (∀ (cc : String → String) (selfId collId : Nat) (hasTC : Bool)
      (field : Option String) (dirty0 : Finset String) (raws : List CloudValue)
      (out : Recipients × Bool),
      recipients_from_cloud cc selfId collId hasTC field dirty0 raws = .ok out →
      out.1.dirty = dirty0) := by
  refine ⟨init_dirty, rfl, init_dirty 5 (some 7) true (some "to") ∅ _, ?_⟩
  intro cc selfId collId hasTC field dirty0 raws out h
  unfold recipients_from_cloud at h
  cases hq : recipients_data_from_cloud cc (some selfId) field raws with
  | error e =>
      rw [hq] at h
      exact absurd h (by simp)
  | ok rs =>
      rw [hq] at h
      injection h with h2
      rw [← h2]
      exact init_dirty collId (some selfId) hasTC field dirty0 (.list (rs.map .recip))

/-- Witness for `construction_never_dirties` (bulk hydration part) at one
concrete raw list. -/
theorem construction_never_dirties_witness :
    (Recipients.init 2 (some 1) true (some "to") ∅
      (.list [.recip ⟨.str "a@x.com", .str "", some 1, some "to"⟩])).1.dirty = ∅ :=
  construction_never_dirties.2.2.2 (fun k => k) 1 2 true (some "to") ∅
    [.dict [("emailAddress", .dict [("address", .str "a@x.com")])]] _ rfl

/-- C9 counterexample: on a concrete collection whose own identifier differs
from its parent identifier, `add` of an address string appends a recipient
whose back-reference is the parent of the collection, not the collection
itself. -/
theorem add_owner_counterexample :
    (Recipients.add ⟨0, some 1, true, some "to", false, [], ∅⟩
      (.str "a@x.com")).1.recs =
      [⟨.str "a@x.com", .str "", some 1, some "to"⟩] ∧
    (some 1 : Option Nat) ≠
      some (Recipients.selfId ⟨0, some 1, true, some "to", false, [], ∅⟩) :=
  ⟨rfl, by decide⟩

/-- C9 amended: a recipient appended by `add` from an address string or a
`(name, address)` pair carries the parent and field name of the collection
(its back-reference is the owner of the collection, not the collection
itself), while a prebuilt truthy recipient is appended unchanged, keeping
whatever back-reference it already had. -/
theorem add_owner_spec (c : Recipients) (s n a : String) (r : Recipient)
    (hs : s ≠ "") (ha : a ≠ "") (hr : r.truthy = true) :
    (c.add (.str s)).1.recs =
      c.recs ++ [⟨.str s, .str "", c.parent, c.field⟩] ∧
    (c.add (.pair n a)).1.recs =
      c.recs ++ [⟨.str a, .str n, c.parent, c.field⟩] ∧
    (c.add (.recip r)).1.recs = c.recs ++ [r] := by
  refine ⟨?_, ?_, ?_⟩
  · rw [Recipients.add]
    rw [if_pos (by simpa [RecipInput.truthy] using hs)]
    rw [track_changes_recs]
    simp only [Recipient.make, orEmptyStr_str]
    rfl
  · rw [Recipients.add]
    rw [if_pos (by simp [RecipInput.truthy])]
    dsimp only
    rw [if_pos (by simpa using ha)]
    rw [track_changes_recs]
    simp [Recipient.make, orEmptyStr_str]
  · rw [Recipients.add]
    rw [if_pos (by simp [RecipInput.truthy, Recipient.truthy] at hr ⊢; exact hr)]
    rw [track_changes_recs]

/-- Witness for `add_owner_spec` at a concrete collection, for all three
accepted shapes. -/
theorem add_owner_spec_witness :
    (Recipients.add ⟨4, some 9, true, some "bcc", false, [], ∅⟩
      (.str "s@t.u")).1.recs = [⟨.str "s@t.u", .str "", some 9, some "bcc"⟩] ∧
    (Recipients.add ⟨4, some 9, true, some "bcc", false, [], ∅⟩
      (.pair "Pam" "p@q.r")).1.recs =
      [⟨.str "p@q.r", .str "Pam", some 9, some "bcc"⟩] ∧
    (Recipients.add ⟨4, some 9, true, some "bcc", false, [], ∅⟩
      (.recip ⟨.str "w@v.u", .str "W", some 6, some "cc"⟩)).1.recs =
      [⟨.str "w@v.u", .str "W", some 6, some "cc"⟩] :=
  add_owner_spec ⟨4, some 9, true, some "bcc", false, [], ∅⟩ "s@t.u" "Pam" "p@q.r"
    ⟨.str "w@v.u", .str "W", some 6, some "cc"⟩ (by decide) (by decide) rfl

/-- Looking a key up in the empty association list finds nothing. -/
theorem dictGet_nil (k : String) : dictGet [] k = none := rfl

/-- Looking a key up at the head of an association list finds its value. -/
theorem dictGet_cons_self (k : String) (v : CloudValue)
    (es : List (String × CloudValue)) : dictGet ((k, v) :: es) k = some v := by
  simp [dictGet]

/-- Looking a key up skips a head entry with a different key. -/
theorem dictGet_cons_ne (k k2 : String) (v : CloudValue)
    (es : List (String × CloudValue)) (h : k2 ≠ k) :
    dictGet ((k2, v) :: es) k = dictGet es k := by
  simp [dictGet, List.find?_cons_of_neg, h]

/-- Evaluation of `_recipient_from_cloud` on a non-empty dict whose unwrapped
envelope is a dict: the address and name are read from the envelope with the
cased keys, defaulting to the empty string. -/
theorem from_cloud_envelope (cc : String → String) (pid : Option Nat)
    (field : Option String) (es inner : List (String × CloudValue))
    (hne : es ≠ [])
    (henv : (dictGet es (cc "emailAddress")).getD (.dict es) = .dict inner) :
    recipient_from_cloud cc pid field (.dict es) =
      .ok (Recipient.make ((dictGet inner (cc "address")).getD (.str ""))
        ((dictGet inner (cc "name")).getD (.str "")) pid field) := by
  unfold recipient_from_cloud
  rw [if_pos (by cases es with
    | nil => exact absurd rfl hne
    | cons e es => simp [CloudValue.truthy])]
  dsimp only
  rw [henv]

/-- C1: round-trip through `_recipient_from_cloud` then `_recipient_to_cloud`
of a canonical flat wire item `{emailAddress: {address, name}}` — required
address non-empty, the two inner keys cased to distinct strings, name
non-empty — reproduces the item exactly; and the same item without a name
entry also reproduces itself, with the name key staying omitted. -/
theorem roundtrip_spec (cc : String → String) (pid : Option Nat)
    (field : Option String) (a n : String) (hcc : cc "address" ≠ cc "name")
    (ha : a ≠ "") (hn : n ≠ "") :
    (recipient_from_cloud cc pid field (.dict [(cc "emailAddress",
        .dict [(cc "address", .str a), (cc "name", .str n)])])).map
      (fun r => recipient_to_cloud cc (some r)) =
      .ok (some (.dict [(cc "emailAddress",
        .dict [(cc "address", .str a), (cc "name", .str n)])])) ∧
    (recipient_from_cloud cc pid field (.dict [(cc "emailAddress",
        .dict [(cc "address", .str a)])])).map
      (fun r => recipient_to_cloud cc (some r)) =
      .ok (some (.dict [(cc "emailAddress",
        .dict [(cc "address", .str a)])])) := by
  constructor
  · rw [from_cloud_envelope cc pid field _
      [(cc "address", .str a), (cc "name", .str n)] (by simp)
      (by rw [dictGet_cons_self]; rfl)]
    rw [dictGet_cons_self, dictGet_cons_ne _ _ _ _ hcc, dictGet_cons_self]
    simp only [Option.getD_some, Recipient.make, orEmptyStr_str, Except.map]
    unfold recipient_to_cloud
    dsimp only [Recipient.truthy]
    rw [if_pos (str_truthy a ha), if_pos (str_truthy n hn)]
  · rw [from_cloud_envelope cc pid field _ [(cc "address", .str a)] (by simp)
      (by rw [dictGet_cons_self]; rfl)]
    rw [dictGet_cons_self, dictGet_cons_ne _ _ _ _ hcc, dictGet_nil]
    simp only [Option.getD_some, Option.getD_none, Recipient.make,
      orEmptyStr_str, Except.map]
    unfold recipient_to_cloud
    dsimp only [Recipient.truthy]
    rw [if_pos (str_truthy a ha), if_neg (by simp [CloudValue.truthy])]

/-- Witness for `roundtrip_spec` with identity casing and a concrete item. -/
theorem roundtrip_spec_witness :
    (recipient_from_cloud (fun k => k) (some 7) (some "to")
      (.dict [("emailAddress",
        .dict [("address", .str "a@x.com"), ("name", .str "Bob")])])).map
      (fun r => recipient_to_cloud (fun k => k) (some r)) =
      .ok (some (.dict [("emailAddress",
        .dict [("address", .str "a@x.com"), ("name", .str "Bob")])])) ∧
    (recipient_from_cloud (fun k => k) (some 7) (some "to")
      (.dict [("emailAddress", .dict [("address", .str "a@x.com")])])).map
      (fun r => recipient_to_cloud (fun k => k) (some r)) =
      .ok (some (.dict [("emailAddress",
        .dict [("address", .str "a@x.com")])])) :=
  roundtrip_spec (fun k => k) (some 7) (some "to") "a@x.com" "Bob"
    (by decide) (by decide) (by decide)

/-- C4 counterexample: hydration is not total — on the mapping
`{emailAddress: "a@x.com"}` the unwrapped envelope is a string, and calling
`.get` on it raises `AttributeError` instead of returning an Addressee. -/
theorem from_cloud_raises_counterexample :
    recipient_from_cloud (fun k => k) none none
      (.dict [("emailAddress", .str "a@x.com")]) = .error () := rfl

/-- C4 amended: `_recipient_from_cloud` returns an Addressee without raising
for every falsy input (the empty Addressee with empty address and name), and
for every non-empty mapping whose `emailAddress` entry is absent (the mapping
itself is used as envelope, missing address and name keys degrading to empty
fields) or maps to a mapping; but a truthy input whose unwrapped envelope is
not a mapping raises. -/
theorem from_cloud_total_spec (cc : String → String) (pid : Option Nat)
    (field : Option String) :
    (∀ v : CloudValue, v.truthy = false →
      recipient_from_cloud cc pid field v = .ok ⟨.str "", .str "", none, none⟩) ∧
    (∀ es : List (String × CloudValue), es ≠ [] →
      dictGet es (cc "emailAddress") = none →
      recipient_from_cloud cc pid field (.dict es) =
        .ok (Recipient.make ((dictGet es (cc "address")).getD (.str ""))
          ((dictGet es (cc "name")).getD (.str "")) pid field)) ∧
    (∀ (es inner : List (String × CloudValue)), es ≠ [] →
      dictGet es (cc "emailAddress") = some (.dict inner) →
      recipient_from_cloud cc pid field (.dict es) =
        .ok (Recipient.make ((dictGet inner (cc "address")).getD (.str ""))
          ((dictGet inner (cc "name")).getD (.str "")) pid field)) := by
  refine ⟨?_, ?_, ?_⟩
  · intro v hv
    unfold recipient_from_cloud
    rw [if_neg (by rw [hv]; simp)]
    rfl
  · intro es hne h
    exact from_cloud_envelope cc pid field es es hne (by rw [h]; rfl)
  · intro es inner hne h
    exact from_cloud_envelope cc pid field es inner hne (by rw [h]; rfl)

/-- Witness for `from_cloud_total_spec`: an absent input, a flat mapping with
no envelope, and an envelope missing the address key all hydrate without
raising. -/
theorem from_cloud_total_spec_witness :
    recipient_from_cloud (fun k => k) (some 3) (some "to") .null =
      .ok ⟨.str "", .str "", none, none⟩ ∧
    recipient_from_cloud (fun k => k) (some 3) (some "to")
        (.dict [("address", .str "a@x.com")]) =
      .ok ⟨.str "a@x.com", .str "", some 3, some "to"⟩ ∧
    recipient_from_cloud (fun k => k) (some 3) (some "to")
        (.dict [("emailAddress", .dict [("name", .str "Bob")])]) =
      .ok ⟨.str "", .str "Bob", some 3, some "to"⟩ := by
  have h := from_cloud_total_spec (fun k => k) (some 3) (some "to")
  refine ⟨h.1 .null rfl, ?_, ?_⟩
  · exact h.2.1 [("address", .str "a@x.com")] (by simp) rfl
  · exact h.2.2 [("emailAddress", .dict [("name", .str "Bob")])]
      [("name", .str "Bob")] (by simp) rfl

end O365
